import Mathlib

/-!
Verification of the ChapterSmith backend (src/main.py, src/schemas.py).

The Python string operations used by the code are modelled over Lean `String`
(a list of characters): `split`, `strip`, `splitlines`, `rfind` and slicing all
work on code points, exactly as in Python.  Whitespace is modelled as the ASCII
whitespace set recognised by Python (space, tab, newline, carriage return,
vertical tab, form feed); the exotic Unicode whitespace code points accepted by
Python's `str.split` are outside the modelled character set and are never used
by the program's own string constants.  The two `while` loops of the code are
modelled with an explicit iteration bound (`gas`) that is proved sufficient
(theorems about `padGo` / `expansionGo` below), so every definition here is a
total, executable function.  All `datetime.now` calls served inside a single
request are modelled by one abstract instant `now : Nat`.
-/

set_option maxRecDepth 100000

namespace ChapterSmith

/-- Whitespace characters recognised by Python's `str.split` / `str.strip`
(the ASCII subset). -/
def isSpace (c : Char) : Bool :=
  c == ' ' || c == '\t' || c == '\n' || c == '\r' || c == '\x0b' || c == '\x0c'

/-- Helper for `pySplit`: walk the characters, accumulating the current word reversed. -/
def splitAux : List Char → List Char → List String
  | [], [] => []
  | [], c :: cur => [String.mk ((c :: cur).reverse)]
  | c :: cs, cur =>
    if isSpace c then
      match cur with
      | [] => splitAux cs []
      | d :: cur' => String.mk ((d :: cur').reverse) :: splitAux cs []
    else
      splitAux cs (c :: cur)

/-- Python `text.split()`: split on runs of whitespace, producing no empty tokens. -/
def pySplit (s : String) : List String := splitAux s.data []

/-- Python `s.strip()`: remove leading and trailing whitespace. -/
def pyStrip (s : String) : String :=
  String.mk (((s.data.dropWhile isSpace).reverse.dropWhile isSpace).reverse)

/-- Python `s.strip(chars)`: remove leading and trailing characters of the given set. -/
def pyStripChars (chs : String) (s : String) : String :=
  String.mk (((s.data.dropWhile (chs.data.contains ·)).reverse.dropWhile
      (chs.data.contains ·)).reverse)

/-- Helper for `pySplitlines` (newline flavours used here: `\n`, `\r`, `\r\n`). -/
def splitlinesAux : List Char → List Char → List String
  | [], [] => []
  | [], c :: cur => [String.mk ((c :: cur).reverse)]
  | c :: cs, cur =>
    if c = '\r' then
      match hcs : cs with
      | '\n' :: cs' => String.mk cur.reverse :: splitlinesAux cs' []
      | _ => String.mk cur.reverse :: splitlinesAux cs []
    else if c = '\n' then
      String.mk cur.reverse :: splitlinesAux cs []
    else
      splitlinesAux cs (c :: cur)
termination_by l _ => l.length
decreasing_by
  all_goals subst_vars
  all_goals simp only [List.length_cons]
  all_goals omega

/-- Python `s.splitlines()`. -/
def pySplitlines (s : String) : List String := splitlinesAux s.data []

/-- Python `x or default` on an optional string field (`None` and `""` are falsy). -/
def pyOr (x : Option String) (d : String) : String :=
  match x with
  | none => d
  | some s => if s = "" then d else s

/-- Python `sep.join(xs)`. -/
def pyJoin (sep : String) : List String → String
  | [] => ""
  | [w] => w
  | w :: ws => w ++ sep ++ pyJoin sep ws

/-- src/main.py `compute_word_count`. -/
def compute_word_count (text : String) : Nat :=
  ((pySplit text).filter (fun w => pyStrip w != "")).length

/-- src/main.py `resolve_chapter_pov`. -/
def resolve_chapter_pov (pov_mode : String) (chapter_number : Int) : String :=
  if pov_mode = "female" then "female"
  else if pov_mode = "male" then "male"
  else if chapter_number % 2 = 1 then "female" else "male"

/-- The filler sentence block appended by `enforce_word_range` when the text is short. -/
def fillerText : String :=
  " I took my time and described what happened in a clear way. I kept the focus on real details, steady thoughts, and simple actions. I stayed in first person and let each moment breathe without sounding poetic or dramatic."

def fillerWords : List String := pySplit fillerText

/-- The `while n < target_min` padding loop of `enforce_word_range`, with an explicit
iteration bound `gas`; every pass appends the 39 filler words, so `1400 - words.length`
iterations always suffice (see `padGo_reaches`). -/
def padGo : Nat → List String → List String
  | 0, ws => ws
  | gas + 1, ws => if ws.length < 1400 then padGo gas (ws ++ fillerWords) else ws

/-- The padding loop of `enforce_word_range`, started with sufficient gas. -/
def pad (ws : List String) : List String := padGo (1400 - ws.length) ws

/-- Python `s.rfind(c)`: index of the last occurrence, `none` when absent. -/
def rfindAux (c : Char) : List Char → Nat → Option Nat → Option Nat
  | [], _, acc => acc
  | d :: rest, i, acc => rfindAux c rest (i + 1) (if d = c then some i else acc)

/-- Python `s.rfind(c)`: highest index of an occurrence, `-1` when absent. -/
def pyRfind (s : String) (c : Char) : Int :=
  match rfindAux c s.data 0 none with
  | some i => (i : Int)
  | none => -1

/-- src/main.py `enforce_word_range`. -/
def enforce_word_range (text : String) : String :=
  let words := pySplit text
  let n := words.length
  if n < 1400 then
    pyJoin " " ((pad words).take 1800)
  else if n > 1800 then
    let trimmed := pyJoin " " (words.take 1800)
    let last_dot := pyRfind trimmed '.'
    if last_dot ≠ -1 ∧ last_dot > 1800 - 200 then
      String.mk (trimmed.data.take (last_dot + 1).toNat)
    else trimmed
  else
    pyJoin " " (words.take 1800)

def sceneLine2 : String :=
  "I watch faces and hands. I listen for tone. I keep my feelings steady and honest."

def sceneLine3 : String :=
  "I let the moment slow enough to understand it, then I make a choice that moves the scene forward."

def sceneLine4 : String :=
  "Dialogue feels natural. I speak in clear sentences. I avoid dramatic fragments and fancy images."

def sceneLine5 : String :=
  "My body tells a simple truth: my breath changes, my shoulders tense, my hands warm or cool."

/-- The five scene-template lines emitted for outline segment `p` at index `i`. -/
def sceneBlock (i : Nat) (p : String) : List String :=
  ["Scene " ++ toString (i + 1) ++ ": " ++ p ++ ". I look for what matters right now. I describe only what I would notice.",
   sceneLine2, sceneLine3, sceneLine4, sceneLine5]

def closer1 : String :=
  "I stay consistent with point of view. I keep it personal and close. I do not summarize the story."

def closer2 : String :=
  "When I think of the other lead, I admit what I want and what I fear, even if I do not say it out loud."

def closer3 : String :=
  "The chapter closes on a clean beat. I do not end with a slogan. I end with a small decision or a question that matters."

def expansionStepHead : String := "I take one more careful step in this situation:"

def expansionTailA : String :=
  "I ask a direct question, I listen, and I notice how my chest feels and how my thoughts settle. I choose clear words and I keep the pace even."

def expansionTailB : String :=
  "I avoid clichés. I use plain language. I stay with the present scene and I let the next moment lead me."

/-- The two string appends performed by one pass of the elaboration loop of
`grounded_chapter_generator`. -/
def expansionAppend (base step : String) : String :=
  base ++ (" " ++ expansionStepHead ++ " " ++ step ++ ". " ++ expansionTailA)
       ++ (" " ++ expansionTailB)

/-- The `while compute_word_count(base) < 1450` elaboration loop, with an explicit
iteration bound `gas`; every pass adds at least 59 words (see `wc_expansionAppend`),
so 1450 iterations always suffice (see `expansionGo_reaches`). -/
def expansionGo (gas : Nat) (cycle : List String) (base : String) (idx : Nat) : String :=
  match gas with
  | 0 => base
  | g + 1 =>
    if compute_word_count base < 1450 then
      expansionGo g cycle (expansionAppend base (cycle.getD (idx % cycle.length) "")) (idx + 1)
    else base

/-- The elaboration loop of `grounded_chapter_generator`, started with sufficient gas. -/
def expansionLoop (cycle : List String) (base : String) (idx : Nat) : String :=
  expansionGo 1450 cycle base idx

/-- src/main.py `grounded_chapter_generator`. -/
def grounded_chapter_generator (outline : String) (chapter_idx chapter_total : Int)
    (pov genre : String) : String :=
  let header := "This chapter follows the outline and continues the story in a clear, human voice. I speak in first person as the " ++ pov ++ " lead. The tone is natural and steady. The setting and actions are grounded in small details."
  let parts0 := ((pySplitlines outline).filter (fun p => pyStrip p != "")).map
      (fun p => pyStripChars "- •\n " p)
  let parts := if parts0 = [] then
      ["The story setup is simple. I meet the other lead and a problem starts."]
    else parts0
  let genre_note :=
    if genre = "billionaire" then
      " There is a quiet tension between wealth and loneliness. Power shows up in small practical ways."
    else if genre = "werewolf" then
      " Instinct and duty pull at me. I notice heat, breath, and the press of the crowd without exaggeration."
    else if genre = "mafia" then
      " Danger is present but not sensational. Trust is fragile and every choice has a cost."
    else ""
  let intro := "It is chapter " ++ toString chapter_idx ++ " of " ++ toString chapter_total ++ ". I keep the pacing even and I move from one scene to the next without jumps. I react in real time with simple thoughts and clean sentences." ++ genre_note
  let lines := [header, intro]
      ++ ((parts.take 8).enum.map (fun ip => sceneBlock ip.1 ip.2)).flatten
      ++ [closer1, closer2, closer3]
  let base := pyJoin " " lines
  let cycle := if parts = [] then ["progress"] else parts
  enforce_word_range (expansionLoop cycle base 0)

/-- schemas.py `Chapter` (timestamps are modelled as abstract instants). -/
structure Chapter where
  number : Int
  title : String
  text : String
  word_count : Nat
  pov : String
  created_at : Nat
  updated_at : Nat
deriving DecidableEq, Repr

/-- schemas.py `Project`. -/
structure Project where
  name : String
  outline : String
  chapter_count : Int
  pov_mode : String
  genre : Option String
  rules : Option String
  chapters : List Chapter
  created_at : Nat
  updated_at : Nat
deriving DecidableEq, Repr

/-- The failure modes of the chapter routes that the claims mention.
`AttributeError` models the uncaught Python exception raised by `c.get("number")`
when `generate_chapter` scans a non-empty chapter list of pydantic `Chapter`
objects (pydantic models have no `.get` method). -/
inductive Err
  | NotFound
  | InvalidRange
  | AttributeError
deriving DecidableEq, Repr

/-- The chapter lookup `next((i for i, c in enumerate(chapters) if c.get("number") == n), None)`
used by `edit_chapter` on the raw document dictionaries. -/
def findChapterIdx : List Chapter → Int → Option Nat
  | [], _ => none
  | c :: rest, num =>
    if c.number = num then some 0 else (findChapterIdx rest num).map (fun j => j + 1)

/-- src/main.py `generate_chapter` (the route body after the project document has been
fetched).  The validation failure is raised before anything is computed or written;
on success the route appends the chapter (the list was empty), and with a non-empty
list the scan `c.get("number")` raises `AttributeError` before any write. -/
def generate_chapter (p : Project) (chapter_number : Int) (user_instructions : Option String)
    (now : Nat) : Except Err (Project × Chapter) :=
  if chapter_number < 1 ∨ p.chapter_count < chapter_number then
    Except.error Err.InvalidRange
  else
    let pov := resolve_chapter_pov p.pov_mode chapter_number
    let text0 := grounded_chapter_generator p.outline chapter_number p.chapter_count pov
        (pyOr p.genre "general")
    let text :=
      match user_instructions with
      | some ui =>
        if ui = "" then text0
        else enforce_word_range (text0 ++ " " ++ ("Adjustment note applied: " ++ pyStrip ui ++ " I keep the same plot and tone while refining moments."))
      | none => text0
    let title := "Chapter " ++ toString chapter_number
    let wc := compute_word_count text
    let ch : Chapter :=
      { number := chapter_number, title := title, text := text, word_count := wc,
        pov := pov, created_at := now, updated_at := now }
    match p.chapters with
    | [] => Except.ok ({ p with chapters := [ch], updated_at := now }, ch)
    | _ :: _ => Except.error Err.AttributeError

/-- The store transition of the generate-one-chapter route: `update_one` runs only
after validation succeeds, so a failure leaves the stored project unchanged. -/
def stepGenerate (p : Project) (chapter_number : Int) (user_instructions : Option String)
    (now : Nat) : Project :=
  match generate_chapter p chapter_number user_instructions now with
  | Except.ok (p', _) => p'
  | Except.error _ => p

/-- The loop body of `generate_all` for `ch_num = k + 1`: resolve the POV, run the
generator, and build the chapter record with its derived word count. -/
def buildChapter (p : Project) (now : Nat) (k : Nat) : Chapter :=
  let ch_num : Int := Int.ofNat (k + 1)
  let pov := resolve_chapter_pov p.pov_mode ch_num
  let text := grounded_chapter_generator p.outline ch_num p.chapter_count pov
      (pyOr p.genre "general")
  { number := ch_num, title := "Chapter " ++ toString ch_num, text := text,
    word_count := compute_word_count text, pov := pov,
    created_at := now, updated_at := now }

/-- src/main.py `generate_all` (the route body after the project document has been
fetched): rebuilds the whole chapter list for numbers `1 .. chapter_count`. -/
def generate_all (p : Project) (now : Nat) : Project :=
  let chapters := (List.range p.chapter_count.toNat).map (buildChapter p now)
  { p with chapters := chapters, updated_at := now }

/-- src/main.py `edit_chapter` (the route body after the project document has been
fetched): applies only the provided fields, re-deriving `word_count` when `text`
is provided, and refreshes the chapter's `updated_at`. -/
def edit_chapter (p : Project) (chapter_number : Int) (title? text? : Option String)
    (now : Nat) : Except Err (Project × Chapter) :=
  match findChapterIdx p.chapters chapter_number with
  | none => Except.error Err.NotFound
  | some i =>
    let c0 := p.chapters.getD i
      { number := 0, title := "", text := "", word_count := 0, pov := "",
        created_at := 0, updated_at := 0 }
    let c1 := match title? with
      | some t => { c0 with title := t }
      | none => c0
    let c2 := match text? with
      | some t =>
        let nt := enforce_word_range t
        { c1 with text := nt, word_count := compute_word_count nt }
      | none => c1
    let c3 := { c2 with updated_at := now }
    Except.ok ({ p with chapters := p.chapters.set i c3, updated_at := now }, c3)

/-- 1801 words whose only '.' sits at word 851 — outside the last 200 words of the
1800-word truncation, but at character index 1701 of the joined truncation, which
is greater than 1600. -/
def c1Words : List String :=
  List.replicate 850 "a" ++ "a." :: List.replicate 950 "a"

def c1Text : String := pyJoin " " c1Words

/-- The first 1800 words of `c1Words`. -/
def c1Trim : List String :=
  List.replicate 850 "a" ++ "a." :: List.replicate 949 "a"

/-- The words kept after the buggy cut-back: everything up to and including "a.". -/
def c1Cut : List String := List.replicate 850 "a" ++ ["a."]

/-- 1400 whitespace-delimited words whose first separator is a newline. -/
def c3Text : String := "a\n" ++ pyJoin " " (List.replicate 1399 "a")

/-- A 1400-word single-space-separated text (word count already in range). -/
def w14 : String := pyJoin " " (List.replicate 1400 "a")

/-- A 1401-character outline word ending in '.'. -/
def bigWord : String := String.mk (List.replicate 1400 'x' ++ ['.'])

/-- An outline consisting of one line: `bigWord` followed by 1900 one-letter
words.  Inside the generated chapter the '.' of that first word is the last '.'
of the 1800-word truncation, at a character index beyond 1600 but at a word
position near the start. -/
def outlineBad : String :=
  pyJoin " " (bigWord :: List.replicate 1900 "a")

def PBad : Project :=
  { name := "n", outline := outlineBad, chapter_count := 3, pov_mode := "female",
    genre := some "general", rules := none, chapters := [], created_at := 0, updated_at := 0 }

/-- A stored chapter used by the witnesses. -/
def C0 : Chapter :=
  { number := 1, title := "T", text := "x", word_count := 1, pov := "female",
    created_at := 0, updated_at := 0 }

/-- A project with one stored chapter, used by the witnesses. -/
def P0 : Project :=
  { name := "n", outline := "o", chapter_count := 3, pov_mode := "female",
    genre := some "general", rules := none, chapters := [C0], created_at := 0, updated_at := 0 }

/-- The chapter stored after editing chapter 1 of `P0` with text `w14` at instant 5. -/
def CH1 : Chapter :=
  { number := 1, title := "T", text := w14, word_count := 1400, pov := "female",
    created_at := 0, updated_at := 5 }

/-- The project stored after that edit. -/
def P1 : Project := { P0 with chapters := [CH1], updated_at := 5 }

/-! ### Helper lemmas about the string model -/

theorem data_append (a b : String) : (a ++ b).data = a.data ++ b.data := by
  cases a; cases b; rfl

/-- Words accumulated so far flush at a space exactly as they flush at end of input,
so splitting distributes over a space-separated concatenation. -/
theorem splitAux_space (l₂ : List Char) :
    ∀ (l₁ cur : List Char),
      splitAux (l₁ ++ ' ' :: l₂) cur = splitAux l₁ cur ++ splitAux l₂ [] := by
  intro l₁
  induction l₁ with
  | nil =>
    intro cur
    cases cur <;> simp [splitAux, isSpace]
  | cons c cs ih =>
    intro cur
    cases hc : isSpace c with
    | true => cases cur <;> simp [splitAux, hc, ih]
    | false => simp [splitAux, hc, ih]

/-- Word count of the underlying character list. -/
def wcOf (l : List Char) : Nat :=
  ((splitAux l []).filter (fun w => pyStrip w != "")).length

theorem compute_word_count_eq_wcOf (s : String) : compute_word_count s = wcOf s.data := rfl

theorem wcOf_space (l₁ l₂ : List Char) : wcOf (l₁ ++ ' ' :: l₂) = wcOf l₁ + wcOf l₂ := by
  unfold wcOf
  rw [splitAux_space, List.filter_append, List.length_append]

/-- Every token produced by `splitAux` is non-empty and contains no whitespace. -/
theorem splitAux_sound :
    ∀ (cs cur : List Char), (∀ c ∈ cur, isSpace c = false) →
      ∀ w ∈ splitAux cs cur, w.data ≠ [] ∧ ∀ c ∈ w.data, isSpace c = false := by
  intro cs
  induction cs with
  | nil =>
    intro cur hcur w hw
    cases cur with
    | nil => simp [splitAux] at hw
    | cons c cur' =>
      simp only [splitAux, List.mem_singleton] at hw
      subst hw
      refine ⟨by simp, ?_⟩
      intro d hd
      exact hcur d (List.mem_reverse.mp hd)
  | cons c cs ih =>
    intro cur hcur w hw
    simp only [splitAux] at hw
    cases hc : isSpace c with
    | true =>
      rw [hc, if_pos rfl] at hw
      cases cur with
      | nil => exact ih [] (by simp) w hw
      | cons d cur' =>
        rcases List.mem_cons.mp hw with hw | hw
        · subst hw
          refine ⟨by simp, ?_⟩
          intro e he
          exact hcur e (List.mem_reverse.mp he)
        · exact ih [] (by simp) w hw
    | false =>
      rw [hc, if_neg (by simp)] at hw
      refine ih (c :: cur) ?_ w hw
      intro e he
      rcases List.mem_cons.mp he with he | he
      · subst he; exact hc
      · exact hcur e he

theorem dropWhile_all_false {α : Type _} (p : α → Bool) :
    ∀ (l : List α), (∀ a ∈ l, p a = false) → l.dropWhile p = l := by
  intro l
  induction l with
  | nil => intro _; rfl
  | cons a l ih =>
    intro h
    rw [List.dropWhile_cons, h a (List.mem_cons_self a l)]
    simp

theorem pyStrip_eq_self_of (w : String) (hns : ∀ c ∈ w.data, isSpace c = false) :
    pyStrip w = w := by
  unfold pyStrip
  rw [dropWhile_all_false _ _ hns,
      dropWhile_all_false _ _ (by intro c hc; exact hns c (List.mem_reverse.mp hc)),
      List.reverse_reverse]

theorem filter_eq_self_of {α : Type _} (p : α → Bool) :
    ∀ (l : List α), (∀ a ∈ l, p a = true) → l.filter p = l := by
  intro l
  induction l with
  | nil => intro _; rfl
  | cons a l ih =>
    intro h
    simp [List.filter_cons, h a (List.mem_cons_self a l),
      ih fun b hb => h b (List.mem_cons_of_mem a hb)]

/-- The redundant `if w.strip()` filter inside `compute_word_count` keeps every token,
so the word count is just the number of whitespace tokens. -/
theorem compute_word_count_eq_length (s : String) :
    compute_word_count s = (pySplit s).length := by
  have hall : ∀ w ∈ pySplit s, (pyStrip w != "") = true := by
    intro w hw
    have h := splitAux_sound s.data [] (by simp) w hw
    rw [pyStrip_eq_self_of w h.2]
    simp only [bne_iff_ne, ne_eq]
    intro heq
    exact h.1 (by rw [heq])
  unfold compute_word_count
  rw [filter_eq_self_of _ _ hall]

theorem string_mk_data (s : String) : String.mk s.data = s := by
  cases s
  rfl

theorem mk_data (l : List Char) : (String.mk l).data = l := rfl

theorem string_ext (s t : String) (h : s.data = t.data) : s = t := by
  cases s
  cases t
  exact congrArg String.mk h

/-- A word as produced by splitting: non-empty and without whitespace. -/
def IsToken (w : String) : Prop :=
  w.data ≠ [] ∧ ∀ c ∈ w.data, isSpace c = false

instance (w : String) : Decidable (IsToken w) := by
  unfold IsToken
  exact inferInstance

theorem pyJoin_cons (sep w : String) (ws : List String) (h : ws ≠ []) :
    pyJoin sep (w :: ws) = w ++ sep ++ pyJoin sep ws := by
  cases ws with
  | nil => exact absurd rfl h
  | cons w' rest => rfl

/-- Splitting a whitespace-free run just accumulates it. -/
theorem splitAux_nonspace :
    ∀ (l cur : List Char), (∀ c ∈ l, isSpace c = false) →
      splitAux l cur = splitAux [] (l.reverse ++ cur) := by
  intro l
  induction l with
  | nil => intro cur _; simp
  | cons c cs ih =>
    intro cur h
    have hc : isSpace c = false := h c (List.mem_cons_self c cs)
    simp only [splitAux, hc, if_neg]
    rw [ih (c :: cur) (fun d hd => h d (List.mem_cons_of_mem c hd))]
    simp

theorem splitAux_token (w : String) (hw : IsToken w) : splitAux w.data [] = [w] := by
  rw [splitAux_nonspace w.data [] hw.2, List.append_nil]
  cases hdata : w.data.reverse with
  | nil =>
    exact absurd (by simpa using congrArg List.reverse hdata) hw.1
  | cons c cur =>
    show [String.mk ((c :: cur).reverse)] = [w]
    rw [← hdata, List.reverse_reverse, string_mk_data]

theorem pySplit_token (w : String) (hw : IsToken w) : pySplit w = [w] :=
  splitAux_token w hw

/-- Splitting distributes over a single-space concatenation. -/
theorem pySplit_append_space (a b : String) :
    pySplit (a ++ " " ++ b) = pySplit a ++ pySplit b := by
  unfold pySplit
  have hdata : (a ++ " " ++ b).data = a.data ++ ' ' :: b.data := by
    simp [data_append, show (" " : String).data = [' '] from rfl]
  rw [hdata, splitAux_space]

theorem wc_append_space (a b : String) :
    compute_word_count (a ++ " " ++ b) = compute_word_count a + compute_word_count b := by
  rw [compute_word_count_eq_length, compute_word_count_eq_length,
    compute_word_count_eq_length, pySplit_append_space, List.length_append]

/-- Joining tokens with single spaces and splitting again is the identity. -/
theorem pySplit_join :
    ∀ (ws : List String), (∀ w ∈ ws, IsToken w) → pySplit (pyJoin " " ws) = ws := by
  intro ws
  induction ws with
  | nil => intro _; rfl
  | cons w rest ih =>
    intro h
    cases rest with
    | nil => exact pySplit_token w (h w (List.mem_cons_self w []))
    | cons w' rest' =>
      rw [pyJoin_cons " " w (w' :: rest') (by simp), pySplit_append_space,
        pySplit_token w (h w (List.mem_cons_self w (w' :: rest'))),
        ih (fun x hx => h x (List.mem_cons_of_mem w hx))]
      rfl

theorem wc_join (ws : List String) (h : ∀ w ∈ ws, IsToken w) :
    compute_word_count (pyJoin " " ws) = ws.length := by
  rw [compute_word_count_eq_length, pySplit_join ws h]

theorem pyJoin_append (sep : String) :
    ∀ (ws₁ ws₂ : List String), ws₁ ≠ [] → ws₂ ≠ [] →
      pyJoin sep (ws₁ ++ ws₂) = pyJoin sep ws₁ ++ sep ++ pyJoin sep ws₂ := by
  intro ws₁
  induction ws₁ with
  | nil => intro ws₂ h _; exact absurd rfl h
  | cons w rest ih =>
    intro ws₂ _ h₂
    cases rest with
    | nil => rw [List.cons_append, List.nil_append, pyJoin_cons sep w ws₂ h₂]; rfl
    | cons w' rest' =>
      rw [List.cons_append, pyJoin_cons sep w _ (by simp),
        ih ws₂ (by simp) h₂, pyJoin_cons sep w _ (by simp)]
      apply string_ext
      simp [data_append]

/-- `rfind` scans concatenations left to right, carrying the best match so far. -/
theorem rfindAux_append (c : Char) :
    ∀ (l₁ l₂ : List Char) (i : Nat) (acc : Option Nat),
      rfindAux c (l₁ ++ l₂) i acc = rfindAux c l₂ (i + l₁.length) (rfindAux c l₁ i acc) := by
  intro l₁
  induction l₁ with
  | nil => intro l₂ i acc; simp [rfindAux]
  | cons d rest ih =>
    intro l₂ i acc
    simp only [List.cons_append, rfindAux, List.length_cons, List.append_eq]
    rw [ih]
    congr 1
    omega

theorem rfindAux_no_occ (c : Char) :
    ∀ (l : List Char) (i : Nat) (acc : Option Nat), (∀ d ∈ l, d ≠ c) →
      rfindAux c l i acc = acc := by
  intro l
  induction l with
  | nil => intro i acc _; rfl
  | cons d rest ih =>
    intro i acc h
    simp only [rfindAux]
    rw [if_neg (h d (List.mem_cons_self d rest)),
      ih _ _ (fun e he => h e (List.mem_cons_of_mem d he))]

theorem repl_ne_nil {α : Type _} (n : Nat) (a : α) : List.replicate (n + 1) a ≠ [] := by
  simp [List.replicate_succ]

theorem join_repl_a_len :
    ∀ n : Nat, (pyJoin " " (List.replicate (n + 1) "a")).data.length = 2 * n + 1 := by
  intro n
  induction n with
  | zero => rfl
  | succ m ih =>
    rw [List.replicate_succ, pyJoin_cons " " "a" _ (repl_ne_nil m "a")]
    have h1 : ("a" : String).data = ['a'] := rfl
    have h2 : (" " : String).data = [' '] := rfl
    simp [data_append, h1, h2, ih]
    omega

theorem join_repl_a_chars :
    ∀ n : Nat, ∀ d ∈ (pyJoin " " (List.replicate n "a")).data, d = 'a' ∨ d = ' ' := by
  intro n
  induction n with
  | zero => intro d hd; exact absurd (show d ∈ ([] : List Char) from hd) (by simp)
  | succ m ih =>
    intro d hd
    cases m with
    | zero =>
      left
      have : d ∈ ['a'] := hd
      simpa using this
    | succ k =>
      rw [List.replicate_succ, pyJoin_cons " " "a" _ (repl_ne_nil k "a"),
        data_append, data_append] at hd
      rcases List.mem_append.mp hd with h1 | h2
      · rcases List.mem_append.mp h1 with ha | hsp
        · left
          have : d ∈ ['a'] := ha
          simpa using this
        · right
          have : d ∈ [' '] := hsp
          simpa using this
      · exact ih d h2

theorem join_repl_a_no_dot (n : Nat) :
    ∀ d ∈ (pyJoin " " (List.replicate n "a")).data, d ≠ '.' := by
  intro d hd h
  rcases join_repl_a_chars n d hd with h' | h'
  · rw [h'] at h; exact absurd h (by decide)
  · rw [h'] at h; exact absurd h (by decide)

/-! ### Concrete facts about the C1/C2 counterexample text -/

theorem c1Words_tokens : ∀ w ∈ c1Words, IsToken w := by
  intro w hw
  unfold c1Words at hw
  rcases List.mem_append.mp hw with h | h
  · rw [List.eq_of_mem_replicate h]; decide
  · rcases List.mem_cons.mp h with h | h
    · rw [h]; decide
    · rw [List.eq_of_mem_replicate h]; decide

theorem c1Trim_tokens : ∀ w ∈ c1Trim, IsToken w := by
  intro w hw
  unfold c1Trim at hw
  rcases List.mem_append.mp hw with h | h
  · rw [List.eq_of_mem_replicate h]; decide
  · rcases List.mem_cons.mp h with h | h
    · rw [h]; decide
    · rw [List.eq_of_mem_replicate h]; decide

theorem c1Cut_tokens : ∀ w ∈ c1Cut, IsToken w := by
  intro w hw
  unfold c1Cut at hw
  rcases List.mem_append.mp hw with h | h
  · rw [List.eq_of_mem_replicate h]; decide
  · rw [List.mem_singleton.mp h]; decide

theorem take_replicate_eq {α : Type _} (a : α) :
    ∀ (n m : Nat), (List.replicate m a).take n = List.replicate (min n m) a := by
  intro n
  induction n with
  | zero => intro m; simp
  | succ k ih =>
    intro m
    cases m with
    | zero => simp
    | succ m' =>
      rw [List.replicate_succ, List.take_succ_cons, ih m', Nat.succ_min_succ,
        List.replicate_succ]

theorem drop_replicate_eq {α : Type _} (a : α) :
    ∀ (n m : Nat), (List.replicate m a).drop n = List.replicate (m - n) a := by
  intro n
  induction n with
  | zero => intro m; simp
  | succ k ih =>
    intro m
    cases m with
    | zero => simp
    | succ m' =>
      rw [List.replicate_succ, List.drop_succ_cons, ih m', Nat.succ_sub_succ]

theorem c1Words_len : c1Words.length = 1801 := by
  unfold c1Words; simp

theorem c1_split : pySplit c1Text = c1Words := by
  unfold c1Text
  exact pySplit_join _ c1Words_tokens

theorem c1_wc : compute_word_count c1Text = 1801 := by
  rw [compute_word_count_eq_length, c1_split, c1Words_len]

theorem c1_take : c1Words.take 1800 = c1Trim := by
  unfold c1Words c1Trim
  rw [List.take_append_eq_append_take, List.take_of_length_le (by simp)]
  have h2 : List.take (1800 - (List.replicate 850 "a").length)
      ("a." :: List.replicate 950 "a") = "a." :: List.replicate 949 "a" := by
    rw [show 1800 - (List.replicate 850 "a").length = 949 + 1 by simp,
      List.take_succ_cons, take_replicate_eq]
    norm_num
  rw [h2]

theorem c1_trim_data :
    (pyJoin " " c1Trim).data
      = (pyJoin " " (List.replicate 850 "a")).data
          ++ ' ' :: 'a' :: '.' :: ' ' :: (pyJoin " " (List.replicate 949 "a")).data := by
  unfold c1Trim
  rw [pyJoin_append " " _ _ (repl_ne_nil 849 "a") (by simp),
    pyJoin_cons " " "a." _ (repl_ne_nil 948 "a")]
  simp [data_append, show (" " : String).data = [' '] from rfl,
    show ("a." : String).data = ['a', '.'] from rfl]

theorem join_repl_a_len' (n m : Nat) (h : n = m + 1) :
    (pyJoin " " (List.replicate n "a")).data.length = 2 * m + 1 := by
  subst h
  exact join_repl_a_len m

theorem c1_J1_len : (pyJoin " " (List.replicate 850 "a")).data.length = 1699 := by
  rw [join_repl_a_len' 850 849 (by norm_num)]

/-- Scanning the segment `" a. "` followed by dot-free characters finds the '.' at
offset 2. -/
theorem rfind_dot_seg (J : List Char) (hJ : ∀ d ∈ J, d ≠ '.') (i : Nat) :
    rfindAux '.' (' ' :: 'a' :: '.' :: ' ' :: J) i none = some (i + 2) := by
  rw [show rfindAux '.' (' ' :: 'a' :: '.' :: ' ' :: J) i none
        = rfindAux '.' ('a' :: '.' :: ' ' :: J) (i + 1) none from rfl,
    show rfindAux '.' ('a' :: '.' :: ' ' :: J) (i + 1) none
        = rfindAux '.' ('.' :: ' ' :: J) (i + 1 + 1) none from rfl,
    show rfindAux '.' ('.' :: ' ' :: J) (i + 1 + 1) none
        = rfindAux '.' (' ' :: J) (i + 1 + 1 + 1) (some (i + 1 + 1)) from rfl,
    show rfindAux '.' (' ' :: J) (i + 1 + 1 + 1) (some (i + 1 + 1))
        = rfindAux '.' J (i + 1 + 1 + 1 + 1) (some (i + 1 + 1)) from rfl,
    rfindAux_no_occ '.' J _ _ hJ]

theorem c1_rfind : pyRfind (pyJoin " " c1Trim) '.' = 1701 := by
  unfold pyRfind
  rw [c1_trim_data, rfindAux_append,
    rfindAux_no_occ '.' _ 0 none (join_repl_a_no_dot 850), c1_J1_len,
    rfind_dot_seg _ (join_repl_a_no_dot 949)]
  rfl

theorem c1_enforce : enforce_word_range c1Text = pyJoin " " c1Cut := by
  simp only [enforce_word_range]
  rw [c1_split, c1Words_len]
  rw [if_neg (by norm_num), if_pos (by norm_num), c1_take, c1_rfind,
    if_pos (by constructor <;> norm_num)]
  apply string_ext
  rw [show (((1701 : Int) + 1).toNat) = 1702 from rfl]
  rw [mk_data]
  rw [c1_trim_data, List.take_append_eq_append_take,
    List.take_of_length_le (by rw [c1_J1_len]; norm_num), c1_J1_len]
  unfold c1Cut
  rw [pyJoin_append " " _ _ (repl_ne_nil 849 "a") (by simp)]
  simp [data_append, show (" " : String).data = [' '] from rfl,
    show ("a." : String).data = ['a', '.'] from rfl,
    show pyJoin " " ["a."] = "a." from rfl]

theorem c1_out_wc : compute_word_count (enforce_word_range c1Text) = 851 := by
  rw [c1_enforce, wc_join _ c1Cut_tokens]
  unfold c1Cut
  simp

/-- The no-op branch of `enforce_word_range`: an in-range text is re-joined from
its own tokens (whitespace-normalised), with the final take being a no-op. -/
theorem enforce_in_range (text : String)
    (h1 : 1400 ≤ compute_word_count text) (h2 : compute_word_count text ≤ 1800) :
    enforce_word_range text = pyJoin " " (pySplit text) := by
  have hlen := compute_word_count_eq_length text
  simp only [enforce_word_range]
  rw [if_neg (by omega), if_neg (by omega), List.take_of_length_le (by omega)]

theorem repl_a_tokens (n : Nat) : ∀ w ∈ List.replicate n "a", IsToken w := by
  intro w hw
  rw [List.eq_of_mem_replicate hw]
  decide

/-! ### Concrete facts about the C3 counterexample text and `w14` -/

theorem w14_split : pySplit w14 = List.replicate 1400 "a" := by
  unfold w14
  exact pySplit_join _ (repl_a_tokens 1400)

theorem w14_wc : compute_word_count w14 = 1400 := by
  rw [compute_word_count_eq_length, w14_split]
  simp

theorem w14_enforce : enforce_word_range w14 = w14 := by
  rw [enforce_in_range w14 (by simp [w14_wc]) (by simp [w14_wc]), w14_split]
  rfl

theorem c3_split : pySplit c3Text = "a" :: List.replicate 1399 "a" := by
  unfold c3Text pySplit
  rw [show ("a\n" ++ pyJoin " " (List.replicate 1399 "a")).data
        = 'a' :: '\n' :: (pyJoin " " (List.replicate 1399 "a")).data from by
      simp [data_append, show ("a\n" : String).data = ['a', '\n'] from rfl]]
  rw [show splitAux ('a' :: '\n' :: (pyJoin " " (List.replicate 1399 "a")).data) []
        = "a" :: splitAux (pyJoin " " (List.replicate 1399 "a")).data [] from rfl]
  rw [show splitAux (pyJoin " " (List.replicate 1399 "a")).data []
        = pySplit (pyJoin " " (List.replicate 1399 "a")) from rfl,
    pySplit_join _ (repl_a_tokens 1399)]

theorem c3_wc : compute_word_count c3Text = 1400 := by
  rw [compute_word_count_eq_length, c3_split]
  simp

theorem c3_enforce_eq_w14 : enforce_word_range c3Text = w14 := by
  rw [enforce_in_range c3Text (by simp [c3_wc]) (by simp [c3_wc]), c3_split]
  rfl

theorem c3_enforce_ne : enforce_word_range c3Text ≠ c3Text := by
  rw [c3_enforce_eq_w14]
  intro h
  have hd := congrArg String.data h
  rw [show w14.data = 'a' :: ' ' :: (pyJoin " " (List.replicate 1399 "a")).data from by
      unfold w14
      rw [show List.replicate 1400 "a" = "a" :: List.replicate 1399 "a" from rfl,
        pyJoin_cons " " "a" _ (repl_ne_nil 1398 "a")]
      simp [data_append, show ("a" : String).data = ['a'] from rfl,
        show (" " : String).data = [' '] from rfl],
    show c3Text.data = 'a' :: '\n' :: (pyJoin " " (List.replicate 1399 "a")).data from by
      unfold c3Text
      simp [data_append, show ("a\n" : String).data = ['a', '\n'] from rfl]] at hd
  simp at hd

/-! ### Tools for evaluating the generator on the C5 counterexample project -/

theorem pySplit_tokens (s : String) : ∀ w ∈ pySplit s, IsToken w := by
  intro w hw
  exact splitAux_sound s.data [] (by simp) w hw

theorem wc_token (w : String) (h : IsToken w) : compute_word_count w = 1 := by
  rw [compute_word_count_eq_length, pySplit_token w h]
  rfl

/-- Splitting a join of lines splits the first line and the rest. -/
theorem pySplit_cons_line (l : String) (ls : List String) (h : ls ≠ []) :
    pySplit (pyJoin " " (l :: ls)) = pySplit l ++ pySplit (pyJoin " " ls) := by
  rw [pyJoin_cons " " l ls h, pySplit_append_space]

theorem wc_cons_line (l : String) (ls : List String) (h : ls ≠ []) :
    compute_word_count (pyJoin " " (l :: ls))
      = compute_word_count l + compute_word_count (pyJoin " " ls) := by
  rw [pyJoin_cons " " l ls h, wc_append_space]

/-- Every character of a single-space join is a space or comes from some token. -/
theorem pyJoin_chars :
    ∀ (ws : List String) (c : Char), c ∈ (pyJoin " " ws).data →
      c = ' ' ∨ ∃ w ∈ ws, c ∈ w.data := by
  intro ws
  induction ws with
  | nil => intro c hc; exact absurd (show c ∈ ([] : List Char) from hc) (by simp)
  | cons w rest ih =>
    intro c hc
    cases rest with
    | nil => exact Or.inr ⟨w, List.mem_cons_self w [], hc⟩
    | cons w' rest' =>
      rw [pyJoin_cons " " w _ (by simp), data_append, data_append] at hc
      rcases List.mem_append.mp hc with h1 | h2
      · rcases List.mem_append.mp h1 with hw | hsp
        · exact Or.inr ⟨w, List.mem_cons_self w _, hw⟩
        · left
          have : c ∈ [' '] := hsp
          simpa using this
      · rcases ih c h2 with h | ⟨x, hx, hcx⟩
        · exact Or.inl h
        · exact Or.inr ⟨x, List.mem_cons_of_mem w hx, hcx⟩

/-- `splitlines` of newline-free, non-empty input is the single whole line. -/
theorem splitlines_no_newline :
    ∀ (l cur : List Char), (∀ c ∈ l, c ≠ '\n' ∧ c ≠ '\r') → (cur ≠ [] ∨ l ≠ []) →
      splitlinesAux l cur = [String.mk (cur.reverse ++ l)] := by
  intro l
  induction l with
  | nil =>
    intro cur _ hne
    cases cur with
    | nil => rcases hne with h | h <;> exact absurd rfl h
    | cons c cur' => simp [splitlinesAux]
  | cons c cs ih =>
    intro cur h _
    have hc := h c (List.mem_cons_self c cs)
    unfold splitlinesAux
    rw [if_neg hc.2, if_neg hc.1,
      ih (c :: cur) (fun d hd => h d (List.mem_cons_of_mem c hd)) (Or.inl (by simp)),
      List.reverse_cons, List.append_assoc, List.singleton_append]

/-- `rfind '.'` over a run of `'x'` ending in `'.'` lands on the final dot,
whatever the accumulator held before. -/
theorem rfind_tail_dot (n i : Nat) (acc : Option Nat) :
    rfindAux '.' (List.replicate n 'x' ++ ['.']) i acc = some (i + n) := by
  rw [rfindAux_append,
    rfindAux_no_occ '.' (List.replicate n 'x') i acc
      (fun d hd => by rw [List.eq_of_mem_replicate hd]; decide),
    List.length_replicate]
  rfl

/-- A join of `"a"` tokens ends in `'a'`. -/
theorem join_repl_a_last :
    ∀ n : Nat, ∃ D, (pyJoin " " (List.replicate (n + 1) "a")).data = D ++ ['a'] := by
  intro n
  induction n with
  | zero => exact ⟨[], rfl⟩
  | succ m ih =>
    obtain ⟨D, hD⟩ := ih
    refine ⟨'a' :: ' ' :: D, ?_⟩
    rw [List.replicate_succ, pyJoin_cons " " "a" _ (repl_ne_nil m "a"), data_append,
      data_append, hD]
    simp [show ("a" : String).data = ['a'] from rfl, show (" " : String).data = [' '] from rfl]

theorem fillerWords_len : fillerWords.length = 39 := by decide

/-- Each pass of the padding loop appends exactly the 39 filler words, so
`1400 - words.length` iterations of gas always reach the 1400-word threshold. -/
theorem padGo_reaches :
    ∀ (gas : Nat) (ws : List String), 1400 ≤ gas + ws.length →
      1400 ≤ (padGo gas ws).length := by
  intro gas
  induction gas with
  | zero => intro ws h; simpa using h
  | succ g ih =>
    intro ws h
    simp only [padGo]
    by_cases hlt : ws.length < 1400
    · rw [if_pos hlt]
      apply ih
      rw [List.length_append, fillerWords_len]
      omega
    · rw [if_neg hlt]; omega

/-- The padding loop of `enforce_word_range` always exits with at least 1400 words. -/
theorem pad_reaches (ws : List String) : 1400 ≤ (pad ws).length := by
  unfold pad
  apply padGo_reaches
  omega

/-- One pass of the elaboration loop adds at least 59 words (the 9 words of the
fixed step sentence head plus the 50 words of the two fixed tails), whatever the
outline segment `step` is. -/
theorem wc_expansionAppend (b step : String) :
    compute_word_count b + 59 ≤ compute_word_count (expansionAppend b step) := by
  have hs : (" " : String).data = [' '] := rfl
  have hd : (". " : String).data = ['.', ' '] := rfl
  have hdata : (expansionAppend b step).data
      = b.data ++ ' ' :: (expansionStepHead.data ++ ' ' :: (step.data
        ++ '.' :: ' ' :: (expansionTailA.data ++ ' ' :: expansionTailB.data))) := by
    simp [expansionAppend, data_append, hs, hd]
  rw [compute_word_count_eq_wcOf, compute_word_count_eq_wcOf, hdata, wcOf_space, wcOf_space]
  have hsplit : step.data ++ '.' :: ' ' :: (expansionTailA.data ++ ' ' :: expansionTailB.data)
      = (step.data ++ ['.']) ++ ' ' :: (expansionTailA.data ++ ' ' :: expansionTailB.data) := by
    simp
  rw [hsplit, wcOf_space, wcOf_space]
  have h1 : wcOf expansionStepHead.data = 9 := by decide
  have h2 : wcOf expansionTailA.data = 29 := by decide
  have h3 : wcOf expansionTailB.data = 21 := by decide
  rw [h1, h2, h3]
  omega

/-- Since each pass adds at least 59 > 0 words, 1450 iterations of gas always
reach the 1450-word threshold of the elaboration loop. -/
theorem expansionGo_reaches :
    ∀ (gas : Nat) (cycle : List String) (base : String) (idx : Nat),
      1450 ≤ gas + compute_word_count base →
      1450 ≤ compute_word_count (expansionGo gas cycle base idx) := by
  intro gas
  induction gas with
  | zero => intro cycle base idx h; simpa using h
  | succ g ih =>
    intro cycle base idx h
    simp only [expansionGo]
    by_cases hlt : compute_word_count base < 1450
    · rw [if_pos hlt]
      apply ih
      have := wc_expansionAppend base (cycle.getD (idx % cycle.length) "")
      omega
    · rw [if_neg hlt]; omega

/-- The elaboration loop of `grounded_chapter_generator` always exits with at
least 1450 words. -/
theorem expansionLoop_reaches (cycle : List String) (base : String) (idx : Nat) :
    1450 ≤ compute_word_count (expansionLoop cycle base idx) := by
  unfold expansionLoop
  apply expansionGo_reaches
  omega

/-! ### The C5 counterexample: evaluating the generator on `outlineBad` -/

/-- The header line the generator emits for a female POV. -/
def headerF : String :=
  "This chapter follows the outline and continues the story in a clear, human voice. I speak in first person as the " ++ "female" ++ " lead. The tone is natural and steady. The setting and actions are grounded in small details."

/-- The chapter-position line the generator emits for chapter `i` of 3 with an
empty genre note. -/
def introLine (i : Int) : String :=
  "It is chapter " ++ toString i ++ " of " ++ toString (3 : Int) ++ ". I keep the pacing even and I move from one scene to the next without jumps. I react in real time with simple thoughts and clean sentences." ++ ""

/-- The first scene line the generator emits for the outline segment `outlineBad`. -/
def scene1 : String :=
  "Scene " ++ toString ((0 : Nat) + 1) ++ ": " ++ outlineBad ++ ". I look for what matters right now. I describe only what I would notice."

/-- The ten lines joined into the pre-expansion base text when the outline is
`outlineBad`, the chapter index is `i`, the total is 3, the POV is female and the
genre is "general". -/
def badLines (i : Int) : List String :=
  [headerF, introLine i] ++ sceneBlock 0 outlineBad ++ [closer1, closer2, closer3]

theorem badLines_eq (i : Int) :
    badLines i = [headerF, introLine i, scene1, sceneLine2, sceneLine3, sceneLine4,
      sceneLine5, closer1, closer2, closer3] := rfl

theorem bigWord_data : bigWord.data = List.replicate 1400 'x' ++ ['.'] := rfl

theorem bigWord_token : IsToken bigWord := by
  constructor
  · rw [bigWord_data]
    simp
  · intro c hc
    rw [bigWord_data] at hc
    rcases List.mem_append.mp hc with h | h
    · rw [List.eq_of_mem_replicate h]
      decide
    · have hc' : c ∈ ['.'] := h
      rw [List.mem_singleton.mp hc']
      decide

theorem outlineBad_eq :
    outlineBad = bigWord ++ " " ++ pyJoin " " (List.replicate 1900 "a") := by
  unfold outlineBad
  exact pyJoin_cons " " bigWord _ (repl_ne_nil 1899 "a")

theorem join_repl_1900 :
    pyJoin " " (List.replicate 1900 "a")
      = pyJoin " " (List.replicate 1899 "a") ++ " " ++ "a" := by
  rw [show (1900 : Nat) = 1899 + 1 from rfl, List.replicate_succ',
    pyJoin_append " " _ _ (repl_ne_nil 1898 "a") (by simp)]
  rfl

theorem outlineBad_data :
    outlineBad.data
      = (List.replicate 1400 'x' ++ ['.'])
          ++ ' ' :: (pyJoin " " (List.replicate 1900 "a")).data := by
  rw [outlineBad_eq, data_append, data_append, bigWord_data,
    show (" " : String).data = [' '] from rfl]
  simp

theorem outlineBad_chars :
    ∀ c ∈ outlineBad.data, c = 'x' ∨ c = '.' ∨ c = 'a' ∨ c = ' ' := by
  intro c hc
  unfold outlineBad at hc
  rcases pyJoin_chars _ c hc with h | ⟨w, hw, hcw⟩
  · exact Or.inr (Or.inr (Or.inr h))
  · rcases List.mem_cons.mp hw with hw' | hw'
    · subst hw'
      rw [bigWord_data] at hcw
      rcases List.mem_append.mp hcw with h | h
      · exact Or.inl (List.eq_of_mem_replicate h)
      · have hc' : c ∈ ['.'] := h
        exact Or.inr (Or.inl (List.mem_singleton.mp hc'))
    · rw [List.eq_of_mem_replicate hw'] at hcw
      have hc' : c ∈ ['a'] := hcw
      exact Or.inr (Or.inr (Or.inl (List.mem_singleton.mp hc')))

theorem outlineBad_no_newline : ∀ c ∈ outlineBad.data, c ≠ '\n' ∧ c ≠ '\r' := by
  intro c hc
  rcases outlineBad_chars c hc with h | h | h | h <;> subst h <;> exact ⟨by decide, by decide⟩

theorem outlineBad_data_ne_nil : outlineBad.data ≠ [] := by
  rw [outlineBad_data]
  simp

theorem outlineBad_splitlines : pySplitlines outlineBad = [outlineBad] := by
  unfold pySplitlines
  rw [splitlines_no_newline outlineBad.data [] outlineBad_no_newline
    (Or.inr outlineBad_data_ne_nil), List.reverse_nil, List.nil_append, string_mk_data]

theorem outlineBad_shape : ∃ MID, outlineBad.data = 'x' :: (MID ++ ['a']) := by
  obtain ⟨D, hD⟩ := join_repl_a_last 1899
  refine ⟨List.replicate 1399 'x' ++ ['.'] ++ ' ' :: D, ?_⟩
  rw [outlineBad_data, show (1900 : Nat) = 1899 + 1 from rfl, hD,
    show (1400 : Nat) = 1399 + 1 from rfl, List.replicate_succ]
  simp

theorem dropWhile_cons_false {α : Type _} (p : α → Bool) (a : α) (l : List α)
    (h : p a = false) : (a :: l).dropWhile p = a :: l := by
  simp [List.dropWhile, h]

/-- Stripping from both ends keeps a string whose first and last characters are
kept by the predicate. -/
theorem strip_keep_ends (f : Char → Bool) (s : String) (c d : Char) (MID : List Char)
    (hs : s.data = c :: (MID ++ [d])) (hc : f c = false) (hd : f d = false) :
    String.mk (((s.data.dropWhile f).reverse.dropWhile f).reverse) = s := by
  rw [hs, dropWhile_cons_false f c _ hc,
    show (c :: (MID ++ [d])).reverse = d :: (c :: MID).reverse from by
      rw [show c :: (MID ++ [d]) = (c :: MID) ++ [d] from by simp, List.reverse_append]
      rfl,
    dropWhile_cons_false f d _ hd,
    show (d :: (c :: MID).reverse).reverse = c :: (MID ++ [d]) from by simp,
    ← hs, string_mk_data]

theorem outlineBad_strip : pyStrip outlineBad = outlineBad := by
  obtain ⟨MID, hMID⟩ := outlineBad_shape
  unfold pyStrip
  exact strip_keep_ends isSpace outlineBad 'x' 'a' MID hMID (by decide) (by decide)

theorem outlineBad_stripChars : pyStripChars "- •\n " outlineBad = outlineBad := by
  obtain ⟨MID, hMID⟩ := outlineBad_shape
  unfold pyStripChars
  exact strip_keep_ends _ outlineBad 'x' 'a' MID hMID (by decide) (by decide)

theorem outlineBad_filter_kept : (pyStrip outlineBad != "") = true := by
  rw [outlineBad_strip]
  simp only [bne_iff_ne, ne_eq]
  intro h
  exact outlineBad_data_ne_nil (by rw [h])

theorem outlineBad_parts :
    ((pySplitlines outlineBad).filter (fun p => pyStrip p != "")).map
      (fun p => pyStripChars "- •\n " p) = [outlineBad] := by
  rw [outlineBad_splitlines,
    show ([outlineBad].filter (fun p => pyStrip p != "")) = [outlineBad] from by
      simp [List.filter_cons, outlineBad_filter_kept],
    List.map_cons, List.map_nil, outlineBad_stripChars]

/-- On `outlineBad` the generator shapes into an enforcement of the expansion
loop over the single segment `outlineBad`, starting from the join of `badLines`. -/
theorem gen_bad_eq (i : Int) :
    grounded_chapter_generator outlineBad i 3 "female" "general"
      = enforce_word_range (expansionLoop [outlineBad] (pyJoin " " (badLines i)) 0) := by
  simp only [grounded_chapter_generator]
  rw [outlineBad_parts]
  rfl

theorem str_assoc (a b c : String) : a ++ b ++ c = a ++ (b ++ c) := by
  apply string_ext
  simp [data_append]

def introTail : String :=
  "of 3. I keep the pacing even and I move from one scene to the next without jumps. I react in real time with simple thoughts and clean sentences."

def sceneTailW : String :=
  "I look for what matters right now. I describe only what I would notice."

theorem introLine_eq (i : Int) :
    introLine i = "It is chapter" ++ " " ++ (toString i ++ " " ++ introTail) := by
  unfold introLine
  rw [show toString (3 : Int) = "3" from by decide]
  apply string_ext
  simp [data_append, introTail]

theorem wc_introLine (i : Int) (htok : IsToken (toString i)) :
    compute_word_count (introLine i) = 33 := by
  rw [introLine_eq i, wc_append_space, wc_append_space, wc_token _ htok,
    show compute_word_count "It is chapter" = 3 from by decide,
    show compute_word_count introTail = 29 from by decide]

theorem scene1_eq :
    scene1 = "Scene 1:" ++ " "
      ++ (bigWord ++ " " ++ (pyJoin " " (List.replicate 1899 "a") ++ " "
          ++ ("a." ++ " " ++ sceneTailW))) := by
  unfold scene1
  rw [show toString ((0 : Nat) + 1) = "1" from by decide, outlineBad_eq, join_repl_1900]
  apply string_ext
  simp [data_append, sceneTailW]

theorem wc_headerF : compute_word_count headerF = 38 := by decide

theorem wc_sceneLine2 : compute_word_count sceneLine2 = 16 := by decide

theorem wc_sceneLine3 : compute_word_count sceneLine3 = 19 := by decide

theorem wc_sceneLine4 : compute_word_count sceneLine4 = 15 := by decide

theorem wc_sceneLine5 : compute_word_count sceneLine5 = 17 := by decide

theorem wc_closer1 : compute_word_count closer1 = 19 := by decide

theorem wc_closer2 : compute_word_count closer2 = 25 := by decide

theorem wc_closer3j : compute_word_count (pyJoin " " [closer3]) = 25 := by decide

theorem wc_sceneTailW : compute_word_count sceneTailW = 14 := by decide

theorem wc_scene1 : compute_word_count scene1 = 1917 := by
  rw [scene1_eq, wc_append_space, wc_append_space, wc_append_space, wc_append_space,
    wc_token bigWord bigWord_token, wc_join _ (repl_a_tokens 1899), List.length_replicate,
    show compute_word_count "Scene 1:" = 2 from by decide,
    show compute_word_count "a." = 1 from by decide, wc_sceneTailW]

/-- The pre-expansion base text over `outlineBad` already has 2124 words. -/
theorem wc_badLines (i : Int) (htok : IsToken (toString i)) :
    compute_word_count (pyJoin " " (badLines i)) = 2124 := by
  rw [badLines_eq, wc_cons_line _ _ (by simp), wc_cons_line _ _ (by simp),
    wc_cons_line _ _ (by simp), wc_cons_line _ _ (by simp), wc_cons_line _ _ (by simp),
    wc_cons_line _ _ (by simp), wc_cons_line _ _ (by simp), wc_cons_line _ _ (by simp),
    wc_cons_line _ _ (by simp), wc_headerF, wc_introLine i htok, wc_scene1,
    wc_sceneLine2, wc_sceneLine3, wc_sceneLine4, wc_sceneLine5, wc_closer1, wc_closer2,
    wc_closer3j]

/-- The elaboration loop exits at once on a base already at or above 1450 words. -/
theorem expansionGo_exit (gas : Nat) (cycle : List String) (base : String) (idx : Nat)
    (h : ¬ compute_word_count base < 1450) : expansionGo gas cycle base idx = base := by
  cases gas with
  | zero => rfl
  | succ g =>
    simp only [expansionGo]
    rw [if_neg h]

theorem badBase_loop (i : Int) (htok : IsToken (toString i)) :
    expansionLoop [outlineBad] (pyJoin " " (badLines i)) 0 = pyJoin " " (badLines i) := by
  unfold expansionLoop
  exact expansionGo_exit 1450 _ _ 0 (by rw [wc_badLines i htok]; norm_num)

theorem pySplit_len_eq_wc (s : String) : (pySplit s).length = compute_word_count s :=
  (compute_word_count_eq_length s).symm

/-- The tokens of the base text before the 1899 outline filler words. -/
def preWords (i : Int) : List String :=
  pySplit headerF ++ (pySplit (introLine i) ++ ["Scene", "1:", bigWord])

/-- The tokens of the base text after the 1899 outline filler words. -/
def sufWords : List String :=
  "a." :: (pySplit sceneTailW ++ (pySplit sceneLine2 ++ (pySplit sceneLine3
    ++ (pySplit sceneLine4 ++ (pySplit sceneLine5 ++ (pySplit closer1
    ++ (pySplit closer2 ++ pySplit (pyJoin " " [closer3]))))))))

theorem scene1_split :
    pySplit scene1
      = ["Scene", "1:"] ++ ([bigWord] ++ (List.replicate 1899 "a"
          ++ (["a."] ++ pySplit sceneTailW))) := by
  rw [scene1_eq, pySplit_append_space, pySplit_append_space, pySplit_append_space,
    pySplit_append_space, pySplit_token bigWord bigWord_token,
    pySplit_join _ (repl_a_tokens 1899),
    show pySplit "Scene 1:" = ["Scene", "1:"] from by decide,
    show pySplit "a." = ["a."] from by decide]

theorem badBase_split (i : Int) :
    pySplit (pyJoin " " (badLines i))
      = preWords i ++ (List.replicate 1899 "a" ++ sufWords) := by
  rw [badLines_eq, pySplit_cons_line _ _ (by simp), pySplit_cons_line _ _ (by simp),
    pySplit_cons_line _ _ (by simp), pySplit_cons_line _ _ (by simp),
    pySplit_cons_line _ _ (by simp), pySplit_cons_line _ _ (by simp),
    pySplit_cons_line _ _ (by simp), pySplit_cons_line _ _ (by simp),
    pySplit_cons_line _ _ (by simp), scene1_split]
  unfold preWords sufWords
  simp [List.append_assoc]

theorem preWords_len (i : Int) (htok : IsToken (toString i)) : (preWords i).length = 74 := by
  unfold preWords
  simp only [List.length_append, List.length_cons, List.length_nil]
  rw [pySplit_len_eq_wc, pySplit_len_eq_wc, wc_headerF, wc_introLine i htok]

theorem sufWords_len : sufWords.length = 151 := by
  unfold sufWords
  simp only [List.length_cons, List.length_append]
  rw [pySplit_len_eq_wc, pySplit_len_eq_wc, pySplit_len_eq_wc, pySplit_len_eq_wc,
    pySplit_len_eq_wc, pySplit_len_eq_wc, pySplit_len_eq_wc, pySplit_len_eq_wc,
    wc_sceneTailW, wc_sceneLine2, wc_sceneLine3, wc_sceneLine4, wc_sceneLine5,
    wc_closer1, wc_closer2, wc_closer3j]

theorem badBase_len (i : Int) (htok : IsToken (toString i)) :
    (pySplit (pyJoin " " (badLines i))).length = 2124 := by
  rw [badBase_split i]
  simp only [List.length_append, List.length_replicate]
  rw [preWords_len i htok, sufWords_len]

theorem badBase_take (i : Int) (htok : IsToken (toString i)) :
    (pySplit (pyJoin " " (badLines i))).take 1800
      = preWords i ++ List.replicate 1726 "a" := by
  rw [badBase_split i, List.take_append_eq_append_take,
    List.take_of_length_le (by rw [preWords_len i htok]; norm_num),
    preWords_len i htok, List.take_append_eq_append_take, take_replicate_eq,
    List.length_replicate,
    show (1800 - 74 : Nat) = 1726 from by norm_num,
    show min (1726 : Nat) 1899 = 1726 from by omega,
    show (1726 - 1899 : Nat) = 0 from by norm_num,
    List.take_zero, List.append_nil]

/-- The tokens of the base text before the big outline word. -/
def bodyA (i : Int) : List String :=
  pySplit headerF ++ (pySplit (introLine i) ++ ["Scene", "1:"])

theorem preWords_eq (i : Int) : preWords i = bodyA i ++ [bigWord] := by
  unfold preWords bodyA
  simp [List.append_assoc]

theorem bodyA_ne_nil (i : Int) : bodyA i ≠ [] := by
  unfold bodyA
  intro h
  have hl := congrArg List.length h
  simp [List.length_append] at hl

theorem bodyA_tokens (i : Int) : ∀ w ∈ bodyA i, IsToken w := by
  intro w hw
  unfold bodyA at hw
  rcases List.mem_append.mp hw with h | h
  · exact pySplit_tokens headerF w h
  · rcases List.mem_append.mp h with h' | h'
    · exact pySplit_tokens (introLine i) w h'
    · rcases List.mem_cons.mp h' with h2 | h2
      · subst h2
        decide
      · have h3 : w ∈ ["1:"] := h2
        rw [List.mem_singleton.mp h3]
        decide

theorem bodyA_len (i : Int) (htok : IsToken (toString i)) : (bodyA i).length = 73 := by
  unfold bodyA
  simp only [List.length_append, List.length_cons, List.length_nil]
  rw [pySplit_len_eq_wc, pySplit_len_eq_wc, wc_headerF, wc_introLine i htok]

theorem JSheader_len : (pyJoin " " (pySplit headerF)).data.length = 212 := by decide

theorem pySplit_headerF_ne_nil : pySplit headerF ≠ [] := by decide

theorem bodyA_join_len_lb (i : Int) :
    212 ≤ (pyJoin " " (bodyA i)).data.length := by
  unfold bodyA
  rw [pyJoin_append " " _ _ pySplit_headerF_ne_nil (by simp), data_append, data_append,
    List.length_append, List.length_append, JSheader_len]
  omega

theorem trim_data (i : Int) :
    (pyJoin " " (preWords i ++ List.replicate 1726 "a")).data
      = (pyJoin " " (bodyA i)).data
          ++ ' ' :: ((List.replicate 1400 'x' ++ ['.'])
          ++ ' ' :: (pyJoin " " (List.replicate 1726 "a")).data) := by
  rw [preWords_eq i, pyJoin_append " " _ _ (by simp) (repl_ne_nil 1725 "a"),
    pyJoin_append " " _ _ (bodyA_ne_nil i) (by simp)]
  simp [data_append, bigWord_data, show pyJoin " " [bigWord] = bigWord from rfl,
    show (" " : String).data = [' '] from rfl]

theorem rfindAux_space_step (l : List Char) (m : Nat) (a : Option Nat) :
    rfindAux '.' (' ' :: l) m a = rfindAux '.' l (m + 1) a := by
  simp only [rfindAux]
  rw [if_neg (by decide)]

theorem trim_rfind (i : Int) :
    pyRfind (pyJoin " " (preWords i ++ List.replicate 1726 "a")) '.'
      = Int.ofNat ((pyJoin " " (bodyA i)).data.length + 1401) := by
  unfold pyRfind
  rw [trim_data i, rfindAux_append, rfindAux_space_step, rfindAux_append,
    rfind_tail_dot, rfindAux_space_step,
    rfindAux_no_occ '.' _ _ _ (join_repl_a_no_dot 1726)]
  show Int.ofNat (0 + (pyJoin " " (bodyA i)).data.length + 1 + 1400)
      = Int.ofNat ((pyJoin " " (bodyA i)).data.length + 1401)
  exact congrArg Int.ofNat (by omega)

/-- On the 2124-word base text, enforcement truncates to 1800 words and then the
character-index cut-back fires on the '.' of `bigWord`, keeping only 74 words. -/
theorem gen_bad_enforce (i : Int) (htok : IsToken (toString i)) :
    enforce_word_range (pyJoin " " (badLines i))
      = pyJoin " " (bodyA i) ++ " " ++ bigWord := by
  simp only [enforce_word_range]
  rw [badBase_len i htok, if_neg (by norm_num), if_pos (by norm_num),
    badBase_take i htok, trim_rfind i]
  have hcond : Int.ofNat ((pyJoin " " (bodyA i)).data.length + 1401) ≠ -1
      ∧ Int.ofNat ((pyJoin " " (bodyA i)).data.length + 1401) > 1800 - 200 := by
    constructor
    · simp only [Int.ofNat_eq_coe]
      omega
    · have := bodyA_join_len_lb i
      simp only [Int.ofNat_eq_coe]
      omega
  rw [if_pos hcond,
    show ((Int.ofNat ((pyJoin " " (bodyA i)).data.length + 1401) + 1)).toNat
        = (pyJoin " " (bodyA i)).data.length + 1402 from by
      simp only [Int.ofNat_eq_coe]
      omega,
    trim_data i]
  apply string_ext
  rw [mk_data, List.take_append_eq_append_take]
  have hJle : (pyJoin " " (bodyA i)).data.length
      ≤ (pyJoin " " (bodyA i)).data.length + 1402 := by omega
  rw [List.take_of_length_le hJle,
    show (pyJoin " " (bodyA i)).data.length + 1402 - (pyJoin " " (bodyA i)).data.length
        = 1402 from by omega,
    show (1402 : Nat) = 1401 + 1 from rfl, List.take_succ_cons,
    List.take_append_eq_append_take]
  have hBDlen : (List.replicate 1400 'x' ++ ['.']).length = 1401 := by simp
  have hBDle : (List.replicate 1400 'x' ++ ['.']).length ≤ 1401 := by rw [hBDlen]
  rw [List.take_of_length_le hBDle, hBDlen,
    show (1401 - 1401 : Nat) = 0 from rfl, List.take_zero, List.append_nil]
  simp [data_append, bigWord_data, show (" " : String).data = [' '] from rfl]

/-! ### Helper lemmas about the chapter list operations -/

theorem findChapterIdx_some :
    ∀ (cs : List Chapter) (num : Int) (i : Nat), findChapterIdx cs num = some i →
      i < cs.length ∧ ∃ old, cs[i]? = some old ∧ old.number = num := by
  intro cs
  induction cs with
  | nil => intro num i h; simp [findChapterIdx] at h
  | cons c rest ih =>
    intro num i h
    simp only [findChapterIdx] at h
    by_cases hc : c.number = num
    · rw [if_pos hc] at h
      cases h
      exact ⟨by simp, c, by simp, hc⟩
    · rw [if_neg hc] at h
      rcases Option.map_eq_some'.mp h with ⟨j, hj, hji⟩
      subst hji
      obtain ⟨hjlen, old, hold, hnum⟩ := ih num j hj
      refine ⟨by simpa using hjlen, old, ?_, hnum⟩
      simpa using hold

theorem set_getElem?_ne {α : Type _} :
    ∀ (l : List α) (i j : Nat) (a : α), i ≠ j → (l.set i a)[j]? = l[j]? := by
  intro l
  induction l with
  | nil => intro i j a _; simp
  | cons x xs ih =>
    intro i j a hne
    cases i with
    | zero =>
      cases j with
      | zero => exact absurd rfl hne
      | succ j' => simp [List.set]
    | succ i' =>
      cases j with
      | zero => simp [List.set]
      | succ j' =>
        simp only [List.set, List.getElem?_cons_succ]
        exact ih i' j' a (fun hcontra => hne (by rw [hcontra]))

theorem set_getElem?_self {α : Type _} :
    ∀ (l : List α) (i : Nat) (a : α), i < l.length → (l.set i a)[i]? = some a := by
  intro l
  induction l with
  | nil => intro i a h; simp at h
  | cons x xs ih =>
    intro i a h
    cases i with
    | zero => simp [List.set]
    | succ i' =>
      simp only [List.set, List.getElem?_cons_succ]
      exact ih i' a (by simpa using h)

theorem getD_of_getElem? {α : Type _} :
    ∀ (l : List α) (i : Nat) (d a : α), l[i]? = some a → l.getD i d = a := by
  intro l
  induction l with
  | nil => intro i d a h; simp at h
  | cons x xs ih =>
    intro i d a h
    cases i with
    | zero => simp at h; simp [List.getD, h]
    | succ i' =>
      simp only [List.getElem?_cons_succ] at h
      simpa [List.getD] using ih i' d a h

/-- What a successful text edit does, for any chapter list: the stored chapter gets
the range-enforced text, the re-derived word count and a fresh `updated_at`, while
keeping the looked-up chapter's other fields; only position `i` of the list changes. -/
theorem edit_text_spec (p : Project) (num : Int) (title? : Option String) (t : String)
    (now : Nat) (p' : Project) (ch : Chapter)
    (h : edit_chapter p num title? (some t) now = Except.ok (p', ch)) :
    ch.text = enforce_word_range t
  ∧ ch.word_count = compute_word_count (enforce_word_range t)
  ∧ ch.updated_at = now
  ∧ p'.updated_at = now
  ∧ ∃ i old, findChapterIdx p.chapters num = some i ∧ p.chapters[i]? = some old
      ∧ old.number = num
      ∧ (title? = none → ch.title = old.title ∧ ch.number = old.number
          ∧ ch.pov = old.pov ∧ ch.created_at = old.created_at)
      ∧ p'.chapters = p.chapters.set i ch
      ∧ ∀ j, j ≠ i → p'.chapters[j]? = p.chapters[j]? := by
  unfold edit_chapter at h
  split at h
  · exact absurd h (by simp)
  · rename_i i hfind
    obtain ⟨hilen, old, hold, hnum⟩ := findChapterIdx_some _ _ _ hfind
    rw [getD_of_getElem? p.chapters i _ old hold] at h
    injection h with hpair
    injection hpair with hp' hch
    subst hp'
    subst hch
    refine ⟨rfl, rfl, rfl, rfl, i, old, hfind, hold, hnum, ?_, rfl, ?_⟩
    · intro ht
      subst ht
      exact ⟨rfl, rfl, rfl, rfl⟩
    · intro j hj
      exact set_getElem?_ne p.chapters i j _ (fun hij => hj hij.symm)

theorem getElem?_lt {α : Type _} :
    ∀ (l : List α) (i : Nat) (a : α), l[i]? = some a → i < l.length := by
  intro l
  induction l with
  | nil => intro i a h; simp at h
  | cons x xs ih =>
    intro i a h
    cases i with
    | zero => simp
    | succ i' =>
      simp only [List.getElem?_cons_succ] at h
      simpa using ih i' a h

theorem mem_set_self {α : Type _} :
    ∀ (l : List α) (i : Nat) (a : α), i < l.length → a ∈ l.set i a := by
  intro l
  induction l with
  | nil => intro i a h; simp at h
  | cons x xs ih =>
    intro i a h
    cases i with
    | zero => simp [List.set]
    | succ i' =>
      simp only [List.set]
      exact List.mem_cons_of_mem x (ih i' a (by simpa using h))

/-- The chapter produced by a text-only edit of `old` with new text `t`. -/
def editedChapter (old : Chapter) (t : String) (now : Nat) : Chapter :=
  { old with
    text := enforce_word_range t
    word_count := compute_word_count (enforce_word_range t)
    updated_at := now }

/-- The concrete result of a successful text-only edit, stated so that the
range-enforced text can be rewritten. -/
theorem edit_chapter_ok (p : Project) (num : Int) (t : String) (now : Nat) (i : Nat)
    (old : Chapter) (hfind : findChapterIdx p.chapters num = some i)
    (hold : p.chapters[i]? = some old) :
    edit_chapter p num none (some t) now =
      Except.ok
        ({ p with chapters := p.chapters.set i (editedChapter old t now), updated_at := now },
          editedChapter old t now) := by
  unfold edit_chapter editedChapter
  rw [hfind]
  split
  · rename_i heq
    exact absurd heq (by simp)
  · rename_i i' heq
    injection heq with hii
    subst hii
    rw [getD_of_getElem? p.chapters _ _ old hold]

theorem edit_w14 : edit_chapter P0 1 none (some w14) 5 = Except.ok (P1, CH1) := by
  rw [edit_chapter_ok P0 1 w14 5 0 C0 rfl rfl]
  unfold editedChapter
  rw [w14_enforce, w14_wc]
  rfl

/-! ### Claim theorems -/

/-- C1: the claim says that for every input whose whitespace-token count is not in
[1400, 1800] the output of `enforce_word_range` has a token count in [1400, 1800].
The code violates this: on `c1Text` (1801 words, hence outside the range) the
truncation branch cuts back to a '.' whose *character* index (1701) exceeds the
threshold 1800 - 200 = 1600 that the source intends as a word count, leaving
only 851 words. -/
theorem c1_enforce_range_violated :
    compute_word_count c1Text = 1801
  ∧ compute_word_count (enforce_word_range c1Text) = 851
  ∧ ¬ (1400 ≤ (851 : Nat) ∧ (851 : Nat) ≤ 1800) :=
  ⟨c1_wc, c1_out_wc, by norm_num⟩

/-- C2: the claim says the cut-back happens exactly when a '.' occurs within the
last 200 words of the 1800-word truncation.  On `c1Text` the last 200 words of the
truncation (words 1600..1799) contain no '.' at all, yet the code does not return
the hard 1800-word cut: it cuts back to word 851, because it compares the
character index of the last '.' against 1600. -/
theorem c2_cutback_without_dot_in_last_200 :
    (((pySplit c1Text).take 1800).drop 1600).all (fun w => !(w.data.contains '.')) = true
  ∧ enforce_word_range c1Text = pyJoin " " c1Cut
  ∧ enforce_word_range c1Text ≠ pyJoin " " ((pySplit c1Text).take 1800) := by
  refine ⟨?_, c1_enforce, ?_⟩
  · rw [c1_split, c1_take]
    have hdrop : c1Trim.drop 1600 = List.replicate 200 "a" := by
      unfold c1Trim
      rw [List.drop_append_eq_append_drop, List.drop_eq_nil_of_le (by simp)]
      simp only [List.nil_append]
      rw [show 1600 - (List.replicate 850 "a").length = 749 + 1 by simp,
        List.drop_succ_cons, drop_replicate_eq]
    rw [hdrop]
    exact List.all_eq_true.mpr (fun x hx => by rw [List.eq_of_mem_replicate hx]; decide)
  · rw [c1_enforce, c1_split, c1_take]
    intro h
    have hwc := congrArg compute_word_count h
    rw [wc_join _ c1Cut_tokens, wc_join _ c1Trim_tokens,
      show c1Cut.length = 851 by unfold c1Cut; simp,
      show c1Trim.length = 1800 by unfold c1Trim; simp] at hwc
    exact absurd hwc (by norm_num)

/-- C3 counterexample: `c3Text` has 1400 words (already in range), but
`enforce_word_range` does not return it unchanged — the no-op branch re-joins the
tokens with single spaces, losing the newline separator. -/
theorem c3_unchanged_counterexample :
    1400 ≤ compute_word_count c3Text ∧ compute_word_count c3Text ≤ 1800
  ∧ enforce_word_range c3Text ≠ c3Text :=
  ⟨by simp [c3_wc], by simp [c3_wc], c3_enforce_ne⟩

/-- C3 (amended): for every input whose whitespace-token count is in [1400, 1800],
`enforce_word_range` returns the input's whitespace tokens joined by single
spaces — i.e. the whitespace-normalised input, which equals the input exactly
when the input is already single-space separated. -/
theorem c3_in_range_normalizes (text : String)
    (h1 : 1400 ≤ compute_word_count text) (h2 : compute_word_count text ≤ 1800) :
    enforce_word_range text = pyJoin " " (pySplit text) :=
  enforce_in_range text h1 h2

theorem c3_in_range_normalizes_witness :
    1400 ≤ compute_word_count w14 ∧ compute_word_count w14 ≤ 1800
  ∧ enforce_word_range w14 = pyJoin " " (pySplit w14) :=
  ⟨by simp [w14_wc], by simp [w14_wc],
    c3_in_range_normalizes w14 (by simp [w14_wc]) (by simp [w14_wc])⟩

/-- C4: the chapter synthesizer is deterministic — two runs on identical inputs
produce identical text.  The embedding is a pure function because the source uses
no randomness and no time: its output depends only on the five arguments. -/
theorem c4_generator_deterministic (o₁ o₂ : String) (i₁ i₂ t₁ t₂ : Int)
    (p₁ p₂ g₁ g₂ : String) (ho : o₁ = o₂) (hi : i₁ = i₂) (ht : t₁ = t₂)
    (hp : p₁ = p₂) (hg : g₁ = g₂) :
    grounded_chapter_generator o₁ i₁ t₁ p₁ g₁ = grounded_chapter_generator o₂ i₂ t₂ p₂ g₂ := by
  subst ho; subst hi; subst ht; subst hp; subst hg; rfl

theorem c4_generator_deterministic_witness :
    ("A meets B." : String) = "A meets B." ∧ (1 : Int) = 1 ∧ (3 : Int) = 3
  ∧ ("female" : String) = "female" ∧ ("general" : String) = "general"
  ∧ grounded_chapter_generator "A meets B." 1 3 "female" "general"
      = grounded_chapter_generator "A meets B." 1 3 "female" "general" :=
  ⟨rfl, rfl, rfl, rfl, rfl,
    c4_generator_deterministic _ _ _ _ _ _ _ _ _ _ rfl rfl rfl rfl rfl⟩

/-- Every chapter generated from `outlineBad` as chapter `i` of 3 with female POV
and genre "general" is cut back to 74 words by the range enforcement. -/
theorem gen_bad_wc (i : Int) (htok : IsToken (toString i)) :
    compute_word_count (grounded_chapter_generator outlineBad i 3 "female" "general") = 74 := by
  rw [gen_bad_eq i, badBase_loop i htok, gen_bad_enforce i htok, wc_append_space,
    wc_join _ (bodyA_tokens i), bodyA_len i htok, wc_token bigWord bigWord_token]

/-- C5: counterexample — on the project `PBad` (chapter count 3, outline
`outlineBad`), `generate_all` does replace the chapter list with chapters
numbered 1, 2, 3 in order, but every produced chapter's word count is 74, far
outside [1400, 1800]: the claimed per-chapter range bound is false. -/
theorem c5_generate_all_wordcounts_out_of_range :
    (generate_all PBad 0).chapters.map (fun c => (c.number, c.word_count))
        = [(1, 74), (2, 74), (3, 74)]
      ∧ ∀ c ∈ (generate_all PBad 0).chapters,
          ¬ (1400 ≤ c.word_count ∧ c.word_count ≤ 1800) := by
  have hchs : (generate_all PBad 0).chapters
      = [buildChapter PBad 0 0, buildChapter PBad 0 1, buildChapter PBad 0 2] := rfl
  have h0 : (buildChapter PBad 0 0).word_count = 74 := by
    rw [show (buildChapter PBad 0 0).word_count
        = compute_word_count (grounded_chapter_generator outlineBad (Int.ofNat (0 + 1)) 3
            "female" "general") from rfl]
    exact gen_bad_wc (Int.ofNat (0 + 1)) (by decide)
  have h1 : (buildChapter PBad 0 1).word_count = 74 := by
    rw [show (buildChapter PBad 0 1).word_count
        = compute_word_count (grounded_chapter_generator outlineBad (Int.ofNat (1 + 1)) 3
            "female" "general") from rfl]
    exact gen_bad_wc (Int.ofNat (1 + 1)) (by decide)
  have h2 : (buildChapter PBad 0 2).word_count = 74 := by
    rw [show (buildChapter PBad 0 2).word_count
        = compute_word_count (grounded_chapter_generator outlineBad (Int.ofNat (2 + 1)) 3
            "female" "general") from rfl]
    exact gen_bad_wc (Int.ofNat (2 + 1)) (by decide)
  constructor
  · rw [hchs]
    simp only [List.map_cons, List.map_nil]
    rw [h0, h1, h2]
    rfl
  · intro c hc
    rw [hchs] at hc
    rcases List.mem_cons.mp hc with h | hc'
    · subst h
      rw [h0]
      omega
    · rcases List.mem_cons.mp hc' with h | hc2
      · subst h
        rw [h1]
        omega
      · have h3 : c ∈ [buildChapter PBad 0 2] := hc2
        rw [List.mem_singleton.mp h3, h2]
        omega

/-- C7: the POV resolver returns "female" under mode "female", "male" under mode
"male", alternates by parity under mode "dual" (odd chapter number → "female",
even → "male"), and never returns "dual" for any mode. -/
theorem c7_resolve_chapter_pov_spec (n : Int) (h : 0 < n) :
    resolve_chapter_pov "female" n = "female"
  ∧ resolve_chapter_pov "male" n = "male"
  ∧ (n % 2 = 1 → resolve_chapter_pov "dual" n = "female")
  ∧ (n % 2 = 0 → resolve_chapter_pov "dual" n = "male")
  ∧ ∀ mode : String, resolve_chapter_pov mode n ≠ "dual" := by
  refine ⟨rfl, rfl, ?_, ?_, ?_⟩
  · intro hp
    unfold resolve_chapter_pov
    rw [if_neg (by decide), if_neg (by decide), if_pos hp]
  · intro hp
    unfold resolve_chapter_pov
    rw [if_neg (by decide), if_neg (by decide), if_neg (by omega)]
  · intro mode
    unfold resolve_chapter_pov
    by_cases h1 : mode = "female"
    · rw [if_pos h1]; decide
    · rw [if_neg h1]
      by_cases h2 : mode = "male"
      · rw [if_pos h2]; decide
      · rw [if_neg h2]
        by_cases h3 : n % 2 = 1
        · rw [if_pos h3]; decide
        · rw [if_neg h3]; decide

theorem c7_resolve_chapter_pov_spec_witness :
    (0 : Int) < 1 ∧ (0 : Int) < 2
  ∧ resolve_chapter_pov "dual" 1 = "female"
  ∧ resolve_chapter_pov "dual" 2 = "male" :=
  ⟨by decide, by decide,
    (c7_resolve_chapter_pov_spec 1 (by decide)).2.2.1 (by decide),
    (c7_resolve_chapter_pov_spec 2 (by decide)).2.2.2.1 (by decide)⟩

/-- C10: both text-growing loops terminate for every input because every
iteration strictly grows the token count — the padding loop by exactly the 39
filler words, the elaboration loop by at least 59 words (its fixed template
words) — so the loops reach their thresholds (1400 and 1450 words) in finitely
many steps, for any outline part list and any text. -/
theorem c10_loops_reach_thresholds :
    (∀ ws : List String, (ws ++ fillerWords).length = ws.length + 39)
  ∧ (∀ ws : List String, 1400 ≤ (pad ws).length)
  ∧ (∀ base step : String,
      compute_word_count base + 59 ≤ compute_word_count (expansionAppend base step))
  ∧ (∀ (cycle : List String) (base : String) (idx : Nat),
      1450 ≤ compute_word_count (expansionLoop cycle base idx)) := by
  refine ⟨?_, pad_reaches, wc_expansionAppend, expansionLoop_reaches⟩
  intro ws
  rw [List.length_append, fillerWords_len]

/-- C8: generate-one-chapter fails with InvalidRange exactly when the requested
chapter number is outside [1, chapter_count]; the validation error is raised before
the database write, so on that failure the stored project (its chapter list and
its `updated_at`) is unchanged. -/
theorem c8_generate_invalid_range_iff (p : Project) (n : Int) (ui : Option String)
    (now : Nat) :
    (generate_chapter p n ui now = Except.error Err.InvalidRange
      ↔ (n < 1 ∨ p.chapter_count < n))
  ∧ (generate_chapter p n ui now = Except.error Err.InvalidRange →
      stepGenerate p n ui now = p
      ∧ (stepGenerate p n ui now).chapters = p.chapters
      ∧ (stepGenerate p n ui now).updated_at = p.updated_at) := by
  constructor
  · constructor
    · intro h
      by_contra hc
      unfold generate_chapter at h
      rw [if_neg hc] at h
      cases hch : p.chapters with
      | nil => rw [hch] at h; exact absurd h (by simp)
      | cons c rest => rw [hch] at h; exact absurd h (by simp)
    · intro h
      unfold generate_chapter
      rw [if_pos h]
  · intro h
    have hstep : stepGenerate p n ui now = p := by
      unfold stepGenerate
      rw [h]
    exact ⟨hstep, by rw [hstep], by rw [hstep]⟩

theorem c8_generate_invalid_range_iff_witness :
    generate_chapter P0 9 none 0 = Except.error Err.InvalidRange
  ∧ stepGenerate P0 9 none 0 = P0 := by
  have h := c8_generate_invalid_range_iff P0 9 none 0
  have herr : generate_chapter P0 9 none 0 = Except.error Err.InvalidRange :=
    h.1.mpr (Or.inr (by decide))
  exact ⟨herr, (h.2 herr).1⟩

/-- C9: a successful edit providing only a text field stores the range-enforced
text, re-derives the word count from it, keeps the chapter's title (and number,
POV, creation instant), refreshes the chapter's `updated_at`, and leaves every
other position of the chapter list unchanged. -/
theorem c9_edit_text_updates (p : Project) (num : Int) (t : String) (now : Nat)
    (p' : Project) (ch : Chapter)
    (h : edit_chapter p num none (some t) now = Except.ok (p', ch)) :
    ch.text = enforce_word_range t
  ∧ ch.word_count = compute_word_count (enforce_word_range t)
  ∧ ch.updated_at = now
  ∧ ∃ i old, p.chapters[i]? = some old ∧ old.number = num
      ∧ ch.title = old.title ∧ ch.number = old.number ∧ ch.pov = old.pov
      ∧ ch.created_at = old.created_at
      ∧ p'.chapters = p.chapters.set i ch
      ∧ ∀ j, j ≠ i → p'.chapters[j]? = p.chapters[j]? := by
  obtain ⟨h1, h2, h3, _, i, old, _, hold, hnum, htitle, hset, hothers⟩ :=
    edit_text_spec p num none t now p' ch h
  obtain ⟨ht1, ht2, ht3, ht4⟩ := htitle rfl
  exact ⟨h1, h2, h3, i, old, hold, hnum, ht1, ht2, ht3, ht4, hset, hothers⟩

theorem c9_edit_text_updates_witness :
    edit_chapter P0 1 none (some w14) 5 = Except.ok (P1, CH1)
  ∧ (CH1.text = enforce_word_range w14
    ∧ CH1.word_count = compute_word_count (enforce_word_range w14)
    ∧ CH1.updated_at = 5
    ∧ ∃ i old, P0.chapters[i]? = some old ∧ old.number = 1
        ∧ CH1.title = old.title ∧ CH1.number = old.number ∧ CH1.pov = old.pov
        ∧ CH1.created_at = old.created_at
        ∧ P1.chapters = P0.chapters.set i CH1
        ∧ ∀ j, j ≠ i → P1.chapters[j]? = P0.chapters[j]?) :=
  ⟨edit_w14, c9_edit_text_updates P0 1 w14 5 P1 CH1 edit_w14⟩

/-- C6: every operation that writes a chapter — generate one, generate all, and
edit with a text field — stores a chapter whose `word_count` field equals the
whitespace-token count of its stored `text`. -/
theorem c6_wordcount_matches_text :
    (∀ (p : Project) (n : Int) (ui : Option String) (now : Nat) (p' : Project)
        (ch : Chapter), generate_chapter p n ui now = Except.ok (p', ch) →
        ch.word_count = compute_word_count ch.text ∧ ch ∈ p'.chapters)
  ∧ (∀ (p : Project) (now : Nat), ∀ ch ∈ (generate_all p now).chapters,
        ch.word_count = compute_word_count ch.text)
  ∧ (∀ (p : Project) (n : Int) (title? : Option String) (t : String) (now : Nat)
        (p' : Project) (ch : Chapter),
        edit_chapter p n title? (some t) now = Except.ok (p', ch) →
        ch.word_count = compute_word_count ch.text ∧ ch ∈ p'.chapters) := by
  refine ⟨?_, ?_, ?_⟩
  · intro p n ui now p' ch h
    unfold generate_chapter at h
    by_cases hr : (n < 1 ∨ p.chapter_count < n)
    · rw [if_pos hr] at h
      exact absurd h (by simp)
    · rw [if_neg hr] at h
      cases hch : p.chapters with
      | nil =>
        rw [hch] at h
        injection h with hpair
        injection hpair with hp' hc
        subst hp'
        subst hc
        exact ⟨rfl, List.mem_cons_self _ _⟩
      | cons c rest =>
        rw [hch] at h
        exact absurd h (by simp)
  · intro p now ch hch
    unfold generate_all at hch
    simp only [List.mem_map] at hch
    obtain ⟨k, _, rfl⟩ := hch
    simp only [buildChapter]
  · intro p n title? t now p' ch h
    obtain ⟨h1, h2, _, _, i, old, _, hold, _, _, hset, _⟩ :=
      edit_text_spec p n title? t now p' ch h
    refine ⟨by rw [h1, h2], ?_⟩
    rw [hset]
    exact mem_set_self p.chapters i ch (getElem?_lt p.chapters i old hold)

theorem c6_wordcount_matches_text_witness :
    edit_chapter P0 1 none (some w14) 5 = Except.ok (P1, CH1)
  ∧ CH1.word_count = compute_word_count CH1.text ∧ CH1 ∈ P1.chapters :=
  ⟨edit_w14, c6_wordcount_matches_text.2.2 P0 1 none w14 5 P1 CH1 edit_w14⟩

end ChapterSmith
